import Mathlib

/-!
Verification of the type-descriptor resolution and structural-compatibility
engine in `pyanalyze/checker.py`.

The source file is embedded shallowly:

* The external collaborators of `Checker` (the typeshed finder `ts_finder`,
  the configured `AdditionalBaseProviders`, and runtime introspection of
  Python type objects: `__dict__`, `__annotations__`, `__mro__`,
  `_is_protocol`, `isinstance` tests) are modelled as an environment `Env`
  of pure oracle functions.  Python attribute accesses that may fail are
  modelled with `Option` / `Except`.
* Python exceptions are modelled by `Except PyErr`, with `PyErr` the name of
  the exception class.
* The mutable fields of `Checker` (`type_object_cache`,
  `assumed_compatibilities`) are a `CheckerState` record threaded
  explicitly; the dictionary is an association list.
* The context manager `assume_compatibility` is modelled as a higher-order
  function from the body's behaviour to the overall behaviour, where a
  behaviour is a resulting state together with a status (normal completion,
  an exception propagating out of the nested work, or a fatal failure of
  the final pop / `assert`).
-/

namespace Pyanalyze

/-- Identifier of a type under analysis, mirroring the
`Union[type, super, str]` keys accepted by `Checker.make_type_object`:
a concrete runtime class (identity-compared), a `super` proxy, or a
synthetic (stub-only) type named by a string. -/
inductive TypeKey where
  | concrete (id : Nat)
  | super_proxy (id : Nat)
  | synthetic (name : String)
deriving DecidableEq

/-- Modelled from the spec: the `TypeObject` descriptor record constructed by
`Checker._build_type_object`; its class definition lives in
`type_object.py`, outside the given source.  Per the spec (§3, §4.2) a
descriptor carries its Type Key, its ancestor set, `is_protocol`, and
`protocol_members`; a construction `TypeObject(typ, bases)` without keyword
arguments yields a non-protocol descriptor with empty member set
("never a protocol", "not a protocol; member set is empty"). -/
structure TypeObject where
  typ : TypeKey
  bases : Finset TypeKey
  is_protocol : Bool
  protocol_members : Finset String
deriving DecidableEq

/-- A value returned by `ts_finder.get_bases_recursively`.
`Checker._get_typeshed_bases` keeps only the `typ` of entries that are
`TypedValue`s and drops everything else. -/
inductive BaseValue where
  | typed (typ : TypeKey)
  | other
deriving DecidableEq

/-- Python exceptions are modelled by the name of the exception class. -/
abbrev PyErr := String

/-- The external collaborators consulted by `Checker`, as pure oracles:
the configured base providers (`options.get_value_for(AdditionalBaseProviders)`,
each of which may raise), the typeshed finder (`ts_finder.is_protocol`,
`ts_finder.get_bases_recursively`, `ts_finder.get_all_attributes`), the
helpers `is_typing_name`, `is_instance_of_typing_name` (for `_ProtocolMeta`)
and `get_mro`, and runtime introspection of a type object:
`set(typ.__dict__)` (`dict_names`), `typ.__annotations__` (`annotations`,
`none` when the attribute is absent), the `_is_protocol` attribute
(`attr_is_protocol`, `none` when reading it raises, as `safe_getattr`
tolerates), whether hashing / containment-testing the key succeeds
(`hashable`), and `sys.version_info >= (3, 10)` (`py_ge_310`). -/
structure Env where
  providers : List (TypeKey → Except PyErr (Finset TypeKey))
  ts_is_protocol : TypeKey → Bool
  get_bases_recursively : TypeKey → List BaseValue
  get_all_attributes : TypeKey → Finset String
  is_typing_Protocol : TypeKey → Bool
  is_typing_Generic : TypeKey → Bool
  is_object : TypeKey → Bool
  is_ProtocolMeta : TypeKey → Bool
  attr_is_protocol : TypeKey → Option Bool
  mro : TypeKey → List TypeKey
  dict_names : TypeKey → Finset String
  annotations : TypeKey → Option (Finset String)
  hashable : TypeKey → Bool
  py_ge_310 : Bool

/-- Lookup in the association-list model of the Python dict
`type_object_cache`. -/
def dict_lookup (k : TypeKey) : List (TypeKey × TypeObject) → Option TypeObject
  | [] => none
  | (k', v) :: rest => if k' = k then some v else dict_lookup k rest

/-- The mutable state of a `Checker` instance relevant to this engine:
the `type_object_cache` dict (as an association list) and the
`assumed_compatibilities` list. -/
structure CheckerState where
  type_object_cache : List (TypeKey × TypeObject)
  assumed_compatibilities : List (TypeObject × TypeObject)
deriving DecidableEq

/-- The module-level constant `EXCLUDED_PROTOCOL_MEMBERS` of `checker.py`. -/
def EXCLUDED_PROTOCOL_MEMBERS : Finset String :=
  {"__abstractmethods__", "__annotations__", "__dict__", "__doc__",
   "__init__", "__new__", "__module__", "__parameters__",
   "__subclasshook__", "__weakref__", "_abc_impl", "_abc_cache",
   "_is_protocol", "__next_in_mro__", "_abc_generic_negative_cache_version",
   "__orig_bases__", "__args__", "_abc_registry", "__extra__",
   "_abc_generic_negative_cache", "__origin__", "__tree_hash__", "_gorg",
   "_is_runtime_protocol"}

/-- The module-level function `_extract_protocol_members`.  `object`,
`Generic` and `Protocol` contribute nothing; otherwise the names of
`typ.__dict__` minus `EXCLUDED_PROTOCOL_MEMBERS`, together with the names in
`typ.__annotations__` when `sys.version_info >= (3, 10)` or the attribute is
present (`hasattr`).  On a Python at or above 3.10 the source reads
`typ.__annotations__` unconditionally, so a (hypothetical) type lacking the
attribute there raises `AttributeError`. -/
def _extract_protocol_members (env : Env) (typ : TypeKey) :
    Except PyErr (Finset String) :=
  if env.is_object typ || env.is_typing_Generic typ
      || env.is_typing_Protocol typ then
    Except.ok ∅
  else
    let members := env.dict_names typ \ EXCLUDED_PROTOCOL_MEMBERS
    if env.py_ge_310 || (env.annotations typ).isSome then
      match env.annotations typ with
      | some ann_names => Except.ok (members ∪ ann_names)
      | none => Except.error "AttributeError"
    else
      Except.ok members

/-- The expression
`set(itertools.chain.from_iterable(_extract_protocol_members(base) for base in bases))`
in the runtime-protocol branch of `_build_type_object`: the union of the
extracted members over the MRO, propagating the first failure. -/
def runtime_protocol_members (env : Env) (bases : List TypeKey) :
    Except PyErr (Finset String) :=
  bases.foldlM
    (fun acc base => (_extract_protocol_members env base).map (fun s => acc ∪ s)) ∅

/-- `Checker._get_typeshed_bases`: the `typ` of every `TypedValue` among
`ts_finder.get_bases_recursively(typ)`, as a set. -/
def _get_typeshed_bases (env : Env) (typ : TypeKey) : Finset TypeKey :=
  ((env.get_bases_recursively typ).filterMap fun v =>
    match v with
    | BaseValue.typed t => some t
    | BaseValue.other => none).toFinset

/-- `Checker._get_protocol_members`: the union of
`ts_finder.get_all_attributes(base)` over the given bases. -/
def _get_protocol_members (env : Env) (bases : Finset TypeKey) : Finset String :=
  bases.biUnion env.get_all_attributes

/-- `Checker.get_additional_bases`: starting from the empty set, union in
`provider(typ)` for every configured provider in order; a provider raising
propagates. -/
def get_additional_bases (env : Env) (typ : TypeKey) :
    Except PyErr (Finset TypeKey) :=
  env.providers.foldlM (fun bases p => (p typ).map (fun s => bases ∪ s)) ∅

/-- The defensive read `safe_getattr(typ, "_is_protocol", False)`: the
attribute's value, or `False` when the access raises. -/
def safe_getattr_is_protocol (env : Env) (typ : TypeKey) : Bool :=
  (env.attr_is_protocol typ).getD false

/-- `Checker._build_type_object`.  Synthetic (string) keys are resolved from
typeshed bases alone; `super` proxies get only additional bases; concrete
types get additional bases, then protocol-ness by a two-tier policy:
the typeshed stub declaration first, runtime introspection
(`_ProtocolMeta` and `_is_protocol`) second, otherwise not a protocol. -/
def _build_type_object (env : Env) (typ : TypeKey) : Except PyErr TypeObject :=
  match typ with
  | TypeKey.synthetic _ =>
    let bases := _get_typeshed_bases env typ
    let is_protocol := decide (∃ b ∈ bases, env.is_typing_Protocol b = true)
    let protocol_members :=
      if is_protocol then _get_protocol_members env bases else ∅
    Except.ok
      { typ := typ, bases := bases, is_protocol := is_protocol,
        protocol_members := protocol_members }
  | TypeKey.super_proxy _ => do
    let additional ← get_additional_bases env typ
    Except.ok
      { typ := typ, bases := additional, is_protocol := false,
        protocol_members := ∅ }
  | TypeKey.concrete _ => do
    let additional ← get_additional_bases env typ
    if env.ts_is_protocol typ then
      let bases := _get_typeshed_bases env typ
      Except.ok
        { typ := typ, bases := additional, is_protocol := true,
          protocol_members := _get_protocol_members env bases }
    else if env.is_ProtocolMeta typ && safe_getattr_is_protocol env typ then
      let bases := env.mro typ
      let members ← runtime_protocol_members env bases
      Except.ok
        { typ := typ, bases := additional, is_protocol := true,
          protocol_members := members }
    else
      Except.ok
        { typ := typ, bases := additional, is_protocol := false,
          protocol_members := ∅ }

/-- `Checker.make_type_object`.  The containment test
`typ in self.type_object_cache` may itself raise; that failure is caught and
the descriptor is built fresh without caching.  On a cache hit the stored
descriptor is returned; on a miss the builder runs and, on success, the
result is stored.  The returned pair is (call outcome, state after the
call). -/
def make_type_object (env : Env) (st : CheckerState) (typ : TypeKey) :
    Except PyErr TypeObject × CheckerState :=
  if env.hashable typ then
    match dict_lookup typ st.type_object_cache with
    | some cached => (Except.ok cached, st)
    | none =>
      match _build_type_object env typ with
      | Except.ok type_object =>
        (Except.ok type_object,
          { st with
              type_object_cache := (typ, type_object) :: st.type_object_cache })
      | Except.error e => (Except.error e, st)
  else
    (_build_type_object env typ, st)

/-- Instrumented copy of `make_type_object` that additionally counts how
many times `_build_type_object` is invoked by the call (0 or 1). -/
def make_type_object_instr (env : Env) (st : CheckerState) (typ : TypeKey) :
    (Except PyErr TypeObject × CheckerState) × Nat :=
  if env.hashable typ then
    match dict_lookup typ st.type_object_cache with
    | some cached => ((Except.ok cached, st), 0)
    | none =>
      match _build_type_object env typ with
      | Except.ok type_object =>
        ((Except.ok type_object,
          { st with
              type_object_cache := (typ, type_object) :: st.type_object_cache }),
         1)
      | Except.error e => ((Except.error e, st), 1)
  else
    ((_build_type_object env typ, st), 1)

/-- `Checker.can_assume_compatibility`: membership of the ordered pair in
`assumed_compatibilities`. -/
def can_assume_compatibility (st : CheckerState) (left right : TypeObject) :
    Bool :=
  decide ((left, right) ∈ st.assumed_compatibilities)

/-- How a piece of checker work terminates: normal completion, an exception
from the nested work propagating, or the two fatal failures of
`assume_compatibility`'s `finally` block (`pop` on an empty list raising
`IndexError`; the `assert pair == new_pair` failing). -/
inductive RunStatus where
  | ok
  | raised
  | pop_failed
  | assert_failed
deriving DecidableEq

/-- Outcome of running a piece of checker work: the resulting state and a
`RunStatus`. -/
structure RunOut where
  state : CheckerState
  status : RunStatus
deriving DecidableEq

/-- The context manager `Checker.assume_compatibility`, applied to the
behaviour of the `with`-block body.  On entry the pair is appended to
`assumed_compatibilities`; the body then runs (possibly raising, and
possibly manipulating the state further); the `finally` block pops the last
element (`IndexError` if the list is empty) and asserts it equals the pushed
pair (`AssertionError` otherwise, which replaces any exception propagating
from the body). -/
def assume_compatibility (left right : TypeObject)
    (body : CheckerState → RunOut) (st : CheckerState) : RunOut :=
  let pair := (left, right)
  let entered :=
    { st with
        assumed_compatibilities := st.assumed_compatibilities ++ [pair] }
  let out := body entered
  match out.state.assumed_compatibilities.getLast? with
  | none => { state := out.state, status := RunStatus.pop_failed }
  | some new_pair =>
    { state :=
        { out.state with
            assumed_compatibilities :=
              out.state.assumed_compatibilities.dropLast },
      status := if new_pair = pair then out.status else RunStatus.assert_failed }

/-- Syntax of properly nested checker work: doing nothing, raising an
exception, sequencing, entering a `with self.assume_compatibility(l, r)`
block, and cache-only side effects (such as nested `make_type_object`
calls), which never touch the assumption stack. -/
inductive Prog where
  | skip
  | raise_exc
  | seq (p q : Prog)
  | scope (left right : TypeObject) (body : Prog)
  | cache_step (f : List (TypeKey × TypeObject) → List (TypeKey × TypeObject))

/-- Execution of properly nested checker work.  The `scoped` case is the
body of `assume_compatibility` unfolded (see `Prog.exec` vs
`assume_compatibility`: they agree definitionally); an exception from `p`
aborts the rest of a `seq`. -/
def Prog.exec : Prog → CheckerState → RunOut
  | Prog.skip, st => { state := st, status := RunStatus.ok }
  | Prog.raise_exc, st => { state := st, status := RunStatus.raised }
  | Prog.seq p q, st =>
    let o := p.exec st
    match o.status with
    | RunStatus.ok => q.exec o.state
    | _ => o
  | Prog.scope l r p, st =>
    let pair := (l, r)
    let entered :=
      { st with
          assumed_compatibilities := st.assumed_compatibilities ++ [pair] }
    let out := p.exec entered
    match out.state.assumed_compatibilities.getLast? with
    | none => { state := out.state, status := RunStatus.pop_failed }
    | some new_pair =>
      { state :=
          { out.state with
              assumed_compatibilities :=
                out.state.assumed_compatibilities.dropLast },
        status :=
          if new_pair = pair then out.status else RunStatus.assert_failed }
  | Prog.cache_step f, st =>
    { state := { st with type_object_cache := f st.type_object_cache },
      status := RunStatus.ok }

/-- A `with`-block body that probes the assumption stack the way the
cycle-breaking caller does: it succeeds exactly when, inside the scope,
`can_assume_compatibility` answers `true` for the pushed direction and
`false` for the reversed direction. -/
def cycle_probe (left right : TypeObject) : CheckerState → RunOut :=
  fun st =>
    { state := st,
      status :=
        if can_assume_compatibility st left right = true
            ∧ can_assume_compatibility st right left = false then
          RunStatus.ok
        else
          RunStatus.raised }

/-- A `with`-block body that violates the LIFO discipline by clearing the
assumption stack. -/
def stack_clobber : CheckerState → RunOut :=
  fun st =>
    { state := { st with assumed_compatibilities := [] },
      status := RunStatus.ok }

instance {ε α : Type} [DecidableEq ε] [DecidableEq α] :
    DecidableEq (Except ε α) := fun a b =>
  match a, b with
  | Except.ok x, Except.ok y =>
    if h : x = y then isTrue (by rw [h])
    else isFalse (by intro c; injection c; contradiction)
  | Except.error x, Except.error y =>
    if h : x = y then isTrue (by rw [h])
    else isFalse (by intro c; injection c; contradiction)
  | Except.ok _, Except.error _ => isFalse (by intro c; injection c)
  | Except.error _, Except.ok _ => isFalse (by intro c; injection c)

/-- Sample synthetic Type Key used in concrete witnesses. -/
def key_S : TypeKey := TypeKey.synthetic "S"

/-- A benign concrete environment: no providers, empty stubs, nothing is a
protocol, every key hashable. -/
def env_ok : Env :=
  { providers := []
    ts_is_protocol := fun _ => false
    get_bases_recursively := fun _ => []
    get_all_attributes := fun _ => ∅
    is_typing_Protocol := fun _ => false
    is_typing_Generic := fun _ => false
    is_object := fun _ => false
    is_ProtocolMeta := fun _ => false
    attr_is_protocol := fun _ => some false
    mro := fun t => [t]
    dict_names := fun _ => ∅
    annotations := fun _ => none
    hashable := fun _ => true
    py_ge_310 := false }

/-- The descriptor `env_ok` builds for `key_S`. -/
def obj_S : TypeObject :=
  { typ := key_S, bases := ∅, is_protocol := false, protocol_members := ∅ }

/-- A fresh checker state: empty cache, empty assumption stack. -/
def state_empty : CheckerState :=
  { type_object_cache := [], assumed_compatibilities := [] }

/-- The state after resolving `key_S` in `env_ok` from `state_empty`. -/
def state_S : CheckerState :=
  { type_object_cache := [(key_S, obj_S)], assumed_compatibilities := [] }

/-- Variant of `env_ok` whose keys fail the cache-membership test (as an
unhashable key would). -/
def env_unhashable : Env := { env_ok with hashable := fun _ => false }

/-- Variant of `env_ok` with a single virtual-base provider that raises. -/
def env_provider_raises : Env :=
  { env_ok with providers := [fun _ => Except.error "ProviderError"] }

/-- Sample descriptors used as assumption-stack entries. -/
def obj_A : TypeObject :=
  { typ := TypeKey.synthetic "A", bases := ∅, is_protocol := false,
    protocol_members := ∅ }

/-- Second sample descriptor, distinct from `obj_A`. -/
def obj_B : TypeObject :=
  { typ := TypeKey.synthetic "B", bases := ∅, is_protocol := false,
    protocol_members := ∅ }

/-- A state whose assumption stack already holds the reversed pair
`(obj_B, obj_A)`. -/
def state_BA : CheckerState :=
  { type_object_cache := [], assumed_compatibilities := [(obj_B, obj_A)] }

/-- Environment whose stubs mark every concrete type as a protocol with one
declared ancestor `"P"` carrying attribute `"foo"`. -/
def env_stub : Env :=
  { env_ok with
      ts_is_protocol := fun _ => true
      get_bases_recursively := fun _ => [BaseValue.typed (TypeKey.synthetic "P")]
      get_all_attributes := fun _ => {"foo"} }

/-- `env_stub` with completely different runtime introspection answers: the
runtime also claims protocol-hood, with member `"bar"` in `__dict__` and
`"baz"` in `__annotations__`.  Only the declaration-level fields agree with
`env_stub`. -/
def env_stub_runtime_noise : Env :=
  { env_stub with
      is_ProtocolMeta := fun _ => true
      attr_is_protocol := fun _ => some true
      mro := fun t => [t]
      dict_names := fun _ => {"bar"}
      annotations := fun _ => some {"baz"}
      py_ge_310 := true }

/-- Environment of a runtime-only protocol whose class body declares no
members but annotates the bookkeeping name `"__doc__"`. -/
def env_doc : Env :=
  { env_ok with
      is_ProtocolMeta := fun _ => true
      attr_is_protocol := fun _ => some true
      annotations := fun _ => some {"__doc__"} }

/-- Environment for the C5 witness: the key `concrete 100` is the universal
base type (`is_object`), every MRO chain consists of it alone, and every
type's `__annotations__` is `{"__doc__"}`. -/
def env_mixed : Env :=
  { env_ok with
      is_object := fun t => decide (t = TypeKey.concrete 100)
      is_ProtocolMeta := fun _ => true
      attr_is_protocol := fun _ => some true
      mro := fun _ => [TypeKey.concrete 100]
      annotations := fun _ => some {"__doc__"} }

/-- Environment of a broken runtime type: it looks like a protocol metaclass
instance, but reading `_is_protocol` raises and `__annotations__` is
absent. -/
def env_broken : Env :=
  { env_ok with
      is_ProtocolMeta := fun _ => true
      attr_is_protocol := fun _ => none }

/-- A virtual-base provider contributing `{concrete 7}` to every key. -/
def provider_X : TypeKey → Except PyErr (Finset TypeKey) :=
  fun _ => Except.ok {TypeKey.concrete 7}

/-- A virtual-base provider contributing `{concrete 8}` to every key. -/
def provider_Y : TypeKey → Except PyErr (Finset TypeKey) :=
  fun _ => Except.ok {TypeKey.concrete 8}

/-- Environment registering the two sample providers, in order. -/
def env_two_providers : Env :=
  { env_ok with providers := [provider_X, provider_Y] }

/-- Environment whose stubs declare a synthetic base named `"Protocol"`
(recognized by `is_typing_name`) with attribute `"foo"`. -/
def env_syn : Env :=
  { env_ok with
      get_bases_recursively := fun _ =>
        [BaseValue.typed (TypeKey.synthetic "Protocol"), BaseValue.other]
      is_typing_Protocol := fun t => decide (t = TypeKey.synthetic "Protocol")
      get_all_attributes := fun _ => {"foo"} }

/-- Helper: a `dict_lookup` miss is exactly absence of the key from the
association list's key column. -/
theorem dict_lookup_eq_none {k : TypeKey} :
    ∀ {l : List (TypeKey × TypeObject)},
      dict_lookup k l = none ↔ k ∉ l.map Prod.fst := by
  intro l
  induction l with
  | nil => simp [dict_lookup]
  | cons hd tl ih =>
    obtain ⟨k', v⟩ := hd
    by_cases h : k' = k
    · subst h
      simp [dict_lookup]
    · simp [dict_lookup, h, ih, Ne.symm h]

/-- C1: cache identity.  With a hashable key, after a successful call
`make_type_object env st typ = (Except.ok desc, st')`: a second call with the
same key returns the very same descriptor and leaves the state untouched;
the descriptor is the cache entry for the key; the second call invokes
`_build_type_object` zero times (so the builder runs at most once per
distinct key during a run); and cache-key uniqueness (at most one descriptor
per key) is preserved. -/
theorem claim_C1 (env : Env) (st : CheckerState) (typ : TypeKey)
    (desc : TypeObject) (st' : CheckerState)
    (hh : env.hashable typ = true)
    (h1 : make_type_object env st typ = (Except.ok desc, st')) :
    make_type_object env st' typ = (Except.ok desc, st')
    ∧ dict_lookup typ st'.type_object_cache = some desc
    ∧ (make_type_object_instr env st' typ).2 = 0
    ∧ ((st.type_object_cache.map Prod.fst).Nodup →
        (st'.type_object_cache.map Prod.fst).Nodup) := by
  cases hcl : dict_lookup typ st.type_object_cache with
  | some cached =>
    simp only [make_type_object, hh, if_true, hcl, Prod.mk.injEq,
      Except.ok.injEq] at h1
    obtain ⟨rfl, rfl⟩ := h1
    refine ⟨?_, hcl, ?_, fun h => h⟩
    · simp [make_type_object, hh, hcl]
    · simp [make_type_object_instr, hh, hcl]
  | none =>
    cases hb : _build_type_object env typ with
    | ok built =>
      simp only [make_type_object, hh, if_true, hcl, hb, Prod.mk.injEq,
        Except.ok.injEq] at h1
      obtain ⟨rfl, rfl⟩ := h1
      refine ⟨?_, ?_, ?_, ?_⟩
      · simp [make_type_object, hh, dict_lookup]
      · simp [dict_lookup]
      · simp [make_type_object_instr, hh, dict_lookup]
      · intro hnd
        simp only [List.map_cons, List.nodup_cons]
        exact ⟨dict_lookup_eq_none.mp hcl, hnd⟩
    | error e =>
      simp [make_type_object, hh, hcl, hb] at h1

/-- C1 witness: concrete run of `claim_C1` on `env_ok`, starting from the
empty state, resolving the synthetic key `"S"`. -/
theorem claim_C1_witness :
    make_type_object env_ok state_S key_S = (Except.ok obj_S, state_S)
    ∧ dict_lookup key_S state_S.type_object_cache = some obj_S
    ∧ (make_type_object_instr env_ok state_S key_S).2 = 0
    ∧ ((state_empty.type_object_cache.map Prod.fst).Nodup →
        (state_S.type_object_cache.map Prod.fst).Nodup) :=
  claim_C1 env_ok state_empty key_S obj_S state_S (by decide) (by decide)

/-- C6: when the cache-membership test itself raises (an unhashable key),
`make_type_object` catches that failure instead of propagating it: the
call's outcome is exactly the outcome of a fresh `_build_type_object`, the
state is unchanged (nothing is cached for this call), and the builder is
invoked once. -/
theorem claim_C6 (env : Env) (st : CheckerState) (typ : TypeKey)
    (hh : env.hashable typ = false) :
    make_type_object env st typ = (_build_type_object env typ, st)
    ∧ (make_type_object_instr env st typ).2 = 1 := by
  constructor <;> simp [make_type_object, make_type_object_instr, hh]

/-- C6 witness: concrete run of `claim_C6` on a key whose membership test
fails. -/
theorem claim_C6_witness :
    make_type_object env_unhashable state_empty key_S =
      (_build_type_object env_unhashable key_S, state_empty)
    ∧ (make_type_object_instr env_unhashable state_empty key_S).2 = 1 :=
  claim_C6 env_unhashable state_empty key_S (by decide)

/-- C10: if building a descriptor for a hashable, uncached key raises (for
example, a registered virtual-base provider raises), `make_type_object`
propagates that very exception and the state — in particular the cache — is
left unchanged; since the state is unchanged, a later call with the same key
invokes the builder again (the builder-invocation count of a call in this
state is 1). -/
theorem claim_C10 (env : Env) (st : CheckerState) (typ : TypeKey) (e : PyErr)
    (hh : env.hashable typ = true)
    (hmiss : dict_lookup typ st.type_object_cache = none)
    (hb : _build_type_object env typ = Except.error e) :
    make_type_object env st typ = (Except.error e, st)
    ∧ (make_type_object_instr env st typ).2 = 1 := by
  constructor <;>
    simp [make_type_object, make_type_object_instr, hh, hmiss, hb]

/-- C10 witness: concrete run of `claim_C10` with a provider that raises
`"ProviderError"` on a concrete type key. -/
theorem claim_C10_witness :
    make_type_object env_provider_raises state_empty (TypeKey.concrete 0) =
      (Except.error "ProviderError", state_empty)
    ∧ (make_type_object_instr env_provider_raises state_empty
        (TypeKey.concrete 0)).2 = 1 :=
  claim_C10 env_provider_raises state_empty (TypeKey.concrete 0)
    "ProviderError" (by decide) (by decide) (by decide)

/-- Helper: bind on a successful `Except` computation. -/
theorem except_bind_ok {e a b : Type} (x : a) (f : a → Except e b) :
    (Except.ok x >>= f) = f x := rfl

/-- C2: protocol precedence for concrete types.  If the typeshed stubs mark
the concrete key as a protocol, the built descriptor has `is_protocol = true`
and `protocol_members` equal to the union of `get_all_attributes` over the
declared stub ancestors (`_get_typeshed_bases`); and the result is the same
under any environment that agrees on the declaration-level fields (providers
and the three `ts_finder` queries), no matter what runtime introspection
would have said. -/
theorem claim_C2 (env env' : Env) (i : Nat) (ab : Finset TypeKey)
    (hp : env.ts_is_protocol (TypeKey.concrete i) = true)
    (hab : get_additional_bases env (TypeKey.concrete i) = Except.ok ab)
    (h1 : env'.providers = env.providers)
    (h2 : env'.ts_is_protocol = env.ts_is_protocol)
    (h3 : env'.get_bases_recursively = env.get_bases_recursively)
    (h4 : env'.get_all_attributes = env.get_all_attributes) :
    _build_type_object env (TypeKey.concrete i) =
      Except.ok
        { typ := TypeKey.concrete i, bases := ab, is_protocol := true,
          protocol_members :=
            (_get_typeshed_bases env (TypeKey.concrete i)).biUnion
              env.get_all_attributes }
    ∧ _build_type_object env' (TypeKey.concrete i) =
        _build_type_object env (TypeKey.concrete i) := by
  constructor
  · simp [_build_type_object, hab, hp, _get_protocol_members, except_bind_ok]
  · simp [_build_type_object, get_additional_bases, _get_typeshed_bases,
      _get_protocol_members, h1, h2, h3, h4, hp]

/-- C2 witness: `claim_C2` run on `env_stub` against
`env_stub_runtime_noise`, whose runtime introspection claims a different
protocol with members `"bar"` and `"baz"`. -/
theorem claim_C2_witness :
    _build_type_object env_stub (TypeKey.concrete 1) =
      Except.ok
        { typ := TypeKey.concrete 1, bases := ∅, is_protocol := true,
          protocol_members :=
            (_get_typeshed_bases env_stub (TypeKey.concrete 1)).biUnion
              env_stub.get_all_attributes }
    ∧ _build_type_object env_stub_runtime_noise (TypeKey.concrete 1) =
        _build_type_object env_stub (TypeKey.concrete 1) :=
  claim_C2 env_stub env_stub_runtime_noise 1 ∅ (by decide) (by decide)
    rfl rfl rfl rfl

/-- C8: synthetic (string-named) keys.  The builder always succeeds;
`is_protocol` is true exactly when some declared ancestor from the Ancestor
Source is the `Protocol` marker; in that case `protocol_members` is the
union of `get_all_attributes` over those ancestors, otherwise it is empty;
and the result does not depend on the registered virtual-base providers at
all (they are never invoked for a synthetic key). -/
theorem claim_C8 (env : Env) (n : String)
    (ps : List (TypeKey → Except PyErr (Finset TypeKey))) :
    (∃ desc, _build_type_object env (TypeKey.synthetic n) = Except.ok desc
      ∧ (desc.is_protocol = true ↔
          ∃ b ∈ _get_typeshed_bases env (TypeKey.synthetic n),
            env.is_typing_Protocol b = true)
      ∧ (desc.is_protocol = true →
          desc.protocol_members =
            _get_protocol_members env
              (_get_typeshed_bases env (TypeKey.synthetic n)))
      ∧ (desc.is_protocol = false → desc.protocol_members = ∅))
    ∧ _build_type_object { env with providers := ps } (TypeKey.synthetic n) =
        _build_type_object env (TypeKey.synthetic n) := by
  constructor
  · refine ⟨_, rfl, ?_, ?_, ?_⟩
    · simp [_build_type_object]
    · intro h
      simp only [_build_type_object] at h ⊢
      simp only [h, if_true]
    · intro h
      simp only [_build_type_object] at h ⊢
      simp only [h, Bool.false_eq_true, if_false]
  · rfl

/-- C8 witness: `claim_C8` at a concrete environment whose stubs declare the
`Protocol` marker ancestor, with error-raising providers registered (which
does not matter, since they are never invoked). -/
theorem claim_C8_witness :
    (∃ desc,
      _build_type_object env_syn (TypeKey.synthetic "Q") = Except.ok desc
      ∧ (desc.is_protocol = true ↔
          ∃ b ∈ _get_typeshed_bases env_syn (TypeKey.synthetic "Q"),
            env_syn.is_typing_Protocol b = true)
      ∧ (desc.is_protocol = true →
          desc.protocol_members =
            _get_protocol_members env_syn
              (_get_typeshed_bases env_syn (TypeKey.synthetic "Q")))
      ∧ (desc.is_protocol = false → desc.protocol_members = ∅))
    ∧ _build_type_object
        { env_syn with providers := [fun _ => Except.error "ProviderError"] }
        (TypeKey.synthetic "Q") =
        _build_type_object env_syn (TypeKey.synthetic "Q") :=
  claim_C8 env_syn "Q" [fun _ => Except.error "ProviderError"]

/-- C3 counterexample: the claim as stated is false.  It only assumes the
pair (A, B) is not already on the stack, but (i) with A = B, inside the
scope `is_assumed(B, A)` is the same query as `is_assumed(A, B)` and returns
true, and (ii) when the reversed pair (B, A) is already on the stack,
`is_assumed(B, A)` is true throughout.  In both runs the probe body — which
succeeds exactly when `is_assumed(A, B)` is true and `is_assumed(B, A)` is
false inside the scope — fails. -/
theorem claim_C3_cex :
    ((obj_A, obj_A) ∉ state_empty.assumed_compatibilities
      ∧ (assume_compatibility obj_A obj_A (cycle_probe obj_A obj_A)
          state_empty).status = RunStatus.raised)
    ∧ ((obj_A, obj_B) ∉ state_BA.assumed_compatibilities
      ∧ (assume_compatibility obj_A obj_B (cycle_probe obj_A obj_B)
          state_BA).status = RunStatus.raised) := by
  decide

/-- C3 (amended): for distinct descriptors A ≠ B with neither (A, B) nor
(B, A) already on the assumption stack, inside the dynamic extent of
`assume_compatibility(A, B)` the query `can_assume_compatibility(A, B)`
returns true and `can_assume_compatibility(B, A)` returns false (the probe
body completes normally), the scope exit restores the state exactly, and
after exit both directions query false. -/
theorem claim_C3 (A B : TypeObject) (st : CheckerState)
    (hAB : (A, B) ∉ st.assumed_compatibilities)
    (hBA : (B, A) ∉ st.assumed_compatibilities)
    (hne : A ≠ B) :
    assume_compatibility A B (cycle_probe A B) st =
      { state := st, status := RunStatus.ok }
    ∧ can_assume_compatibility st A B = false
    ∧ can_assume_compatibility st B A = false := by
  obtain ⟨cache, stack⟩ := st
  simp only [CheckerState.mk.injEq] at hAB hBA ⊢
  have hin : can_assume_compatibility
      { type_object_cache := cache,
        assumed_compatibilities := stack ++ [(A, B)] } A B = true := by
    simp [can_assume_compatibility]
  have hrev : can_assume_compatibility
      { type_object_cache := cache,
        assumed_compatibilities := stack ++ [(A, B)] } B A = false := by
    rw [can_assume_compatibility, decide_eq_false_iff_not]
    intro hmem
    rcases List.mem_append.mp hmem with h | h
    · exact hBA h
    · rcases List.mem_singleton.mp h with h'
      exact hne ((Prod.mk.injEq _ _ _ _).mp h').2
  refine ⟨?_, ?_, ?_⟩
  · simp [assume_compatibility, cycle_probe, hin, hrev,
      List.getLast?_concat, List.dropLast_concat]
  · simpa [can_assume_compatibility] using hAB
  · simpa [can_assume_compatibility] using hBA

/-- C3 witness: `claim_C3` run with the two distinct sample descriptors on
the empty stack. -/
theorem claim_C3_witness :
    assume_compatibility obj_A obj_B (cycle_probe obj_A obj_B) state_empty =
      { state := state_empty, status := RunStatus.ok }
    ∧ can_assume_compatibility state_empty obj_A obj_B = false
    ∧ can_assume_compatibility state_empty obj_B obj_A = false :=
  claim_C3 obj_A obj_B state_empty (by decide) (by decide) (by decide)

/-- Helper: properly nested work never desynchronizes the assumption stack
and never trips the pop / assert of `assume_compatibility`: after any
`Prog`, the stack is exactly what it was, and the status is never one of the
two fatal ones. -/
theorem exec_stack_invariant (p : Prog) : ∀ st : CheckerState,
    (p.exec st).state.assumed_compatibilities = st.assumed_compatibilities
    ∧ (p.exec st).status ≠ RunStatus.pop_failed
    ∧ (p.exec st).status ≠ RunStatus.assert_failed := by
  induction p with
  | skip => intro st; exact ⟨rfl, by simp [Prog.exec], by simp [Prog.exec]⟩
  | raise_exc =>
    intro st; exact ⟨rfl, by simp [Prog.exec], by simp [Prog.exec]⟩
  | seq p q ihp ihq =>
    intro st
    obtain ⟨h1, h2, h3⟩ := ihp st
    cases hs : (p.exec st).status with
    | ok =>
      obtain ⟨g1, g2, g3⟩ := ihq (p.exec st).state
      exact ⟨by simp [Prog.exec, hs, g1, h1], by simp [Prog.exec, hs, g2],
        by simp [Prog.exec, hs, g3]⟩
    | raised =>
      exact ⟨by simp [Prog.exec, hs, h1], by simp [Prog.exec, hs],
        by simp [Prog.exec, hs]⟩
    | pop_failed => exact absurd hs h2
    | assert_failed => exact absurd hs h3
  | scope l r p ihp =>
    intro st
    obtain ⟨h1, h2, h3⟩ :=
      ihp { st with
              assumed_compatibilities :=
                st.assumed_compatibilities ++ [(l, r)] }
    refine ⟨?_, ?_, ?_⟩ <;>
      simp [Prog.exec, h1, h2, h3, List.getLast?_concat, List.dropLast_concat]
  | cache_step f => intro st; exact ⟨rfl, by simp [Prog.exec], by simp [Prog.exec]⟩

/-- C4: stack balance and fatal mismatch.  (i) Any properly nested sequence
of scoped acquisitions — including ones whose nested work raises partway
through — leaves the assumption stack exactly as it was and never trips the
final pop or the `assert`; (ii) the `scoped` execution step is literally
`assume_compatibility` applied to the body's execution; (iii) if a (LIFO-
violating) body leaves something other than the pushed pair on top of the
stack, the scope exit is one of the two fatal halts, never a silent
desynchronization. -/
theorem claim_C4 (p : Prog) (st : CheckerState) (l r : TypeObject)
    (body : CheckerState → RunOut)
    (hmis : (body { st with
        assumed_compatibilities :=
          st.assumed_compatibilities ++ [(l, r)] }).state.assumed_compatibilities.getLast?
        ≠ some (l, r)) :
    ((p.exec st).state.assumed_compatibilities = st.assumed_compatibilities
      ∧ (p.exec st).status ≠ RunStatus.pop_failed
      ∧ (p.exec st).status ≠ RunStatus.assert_failed)
    ∧ (Prog.scope l r p).exec st = assume_compatibility l r p.exec st
    ∧ ((assume_compatibility l r body st).status = RunStatus.pop_failed
        ∨ (assume_compatibility l r body st).status = RunStatus.assert_failed) := by
  refine ⟨exec_stack_invariant p st, rfl, ?_⟩
  cases hlast : (body { st with
      assumed_compatibilities :=
        st.assumed_compatibilities ++ [(l, r)] }).state.assumed_compatibilities.getLast? with
  | none => left; simp [assume_compatibility, hlast]
  | some np =>
    right
    have hne : ¬(np = (l, r)) := fun h => hmis (by rw [hlast, h])
    simp [assume_compatibility, hlast, hne]

/-- C4 witness: `claim_C4` run on a scope whose nested work raises (the
round trip still holds), together with a stack-clobbering body that
triggers the fatal exit. -/
theorem claim_C4_witness :
    (((Prog.scope obj_A obj_B Prog.raise_exc).exec
          state_empty).state.assumed_compatibilities =
        state_empty.assumed_compatibilities
      ∧ ((Prog.scope obj_A obj_B Prog.raise_exc).exec state_empty).status ≠
          RunStatus.pop_failed
      ∧ ((Prog.scope obj_A obj_B Prog.raise_exc).exec state_empty).status ≠
          RunStatus.assert_failed)
    ∧ (Prog.scope obj_A obj_B (Prog.scope obj_A obj_B Prog.raise_exc)).exec
          state_empty =
        assume_compatibility obj_A obj_B
          (Prog.scope obj_A obj_B Prog.raise_exc).exec state_empty
    ∧ ((assume_compatibility obj_A obj_B stack_clobber state_empty).status =
          RunStatus.pop_failed
        ∨ (assume_compatibility obj_A obj_B stack_clobber state_empty).status =
          RunStatus.assert_failed) :=
  claim_C4 (Prog.scope obj_A obj_B Prog.raise_exc) state_empty obj_A obj_B
    stack_clobber (by decide)

/-- Helper: an MRO consisting only of `object` / `Generic` / `Protocol`
entries contributes nothing to the runtime member fold. -/
theorem runtime_protocol_members_markers (env : Env) :
    ∀ l : List TypeKey,
      (∀ b ∈ l, env.is_object b = true ∨ env.is_typing_Generic b = true
          ∨ env.is_typing_Protocol b = true) →
      ∀ acc : Finset String,
        l.foldlM
          (fun a base =>
            (_extract_protocol_members env base).map (fun s => a ∪ s)) acc =
          Except.ok acc := by
  intro l
  induction l with
  | nil => intro _ acc; rfl
  | cons b rest ih =>
    intro h acc
    have hb : _extract_protocol_members env b = Except.ok ∅ := by
      rcases h b (by simp) with h' | h' | h' <;>
        simp [_extract_protocol_members, h']
    rw [List.foldlM_cons, hb]
    show rest.foldlM _ (acc ∪ ∅) = Except.ok acc
    rw [Finset.union_empty]
    exact ih (fun b hb' => h b (List.mem_cons_of_mem _ hb')) acc

/-- C5 counterexample: the claim as stated is false.  Member extraction does
exclude `EXCLUDED_PROTOCOL_MEMBERS` from `__dict__`, but names coming from
`__annotations__` are unioned in afterwards without filtering, so a
runtime-detected protocol that annotates the bookkeeping name `"__doc__"`
ends up with it in `protocol_members`. -/
theorem claim_C5_cex :
    _build_type_object env_doc (TypeKey.concrete 5) =
      Except.ok
        { typ := TypeKey.concrete 5, bases := ∅, is_protocol := true,
          protocol_members := {"__doc__"} }
    ∧ "__doc__" ∈ EXCLUDED_PROTOCOL_MEMBERS := by
  decide

/-- C5 (amended): (i) an excluded name can appear in an extracted member set
only by coming from the type's declared annotation metadata — names from
`__dict__` are always filtered against the exclusion set; (ii) the ancestors
`object`, `Generic` and `Protocol` contribute no members at all; (iii) a
runtime-detected structural contract type whose MRO consists only of the
universal base type and the protocol-infrastructure marker types yields
`protocol_members = ∅`. -/
theorem claim_C5 (env : Env) (t k : TypeKey) (m : Finset String) (x : String)
    (ab : Finset TypeKey) (i : Nat)
    (hm : _extract_protocol_members env t = Except.ok m)
    (hx : x ∈ m)
    (hex : x ∈ EXCLUDED_PROTOCOL_MEMBERS)
    (hmark : env.is_object k = true ∨ env.is_typing_Generic k = true
        ∨ env.is_typing_Protocol k = true)
    (hab : get_additional_bases env (TypeKey.concrete i) = Except.ok ab)
    (hstub : env.ts_is_protocol (TypeKey.concrete i) = false)
    (hmeta : env.is_ProtocolMeta (TypeKey.concrete i) = true)
    (hattr : safe_getattr_is_protocol env (TypeKey.concrete i) = true)
    (hmro : ∀ b ∈ env.mro (TypeKey.concrete i),
        env.is_object b = true ∨ env.is_typing_Generic b = true
          ∨ env.is_typing_Protocol b = true) :
    (∃ ann_names, env.annotations t = some ann_names ∧ x ∈ ann_names)
    ∧ _extract_protocol_members env k = Except.ok ∅
    ∧ _build_type_object env (TypeKey.concrete i) =
        Except.ok
          { typ := TypeKey.concrete i, bases := ab, is_protocol := true,
            protocol_members := ∅ } := by
  refine ⟨?_, ?_, ?_⟩
  · unfold _extract_protocol_members at hm
    split at hm
    · injection hm with hm'
      rw [← hm'] at hx
      exact absurd hx (Finset.not_mem_empty x)
    · split at hm
      · cases hann : env.annotations t with
        | some ann_names =>
          rw [hann] at hm
          injection hm with hm'
          rw [← hm'] at hx
          rcases Finset.mem_union.mp hx with h | h
          · exact absurd hex (Finset.mem_sdiff.mp h).2
          · exact ⟨ann_names, rfl, h⟩
        | none =>
          rw [hann] at hm
          exact absurd hm (by simp)
      · injection hm with hm'
        rw [← hm'] at hx
        exact absurd hex (Finset.mem_sdiff.mp hx).2
  · rcases hmark with h | h | h <;> simp [_extract_protocol_members, h]
  · have hrt : runtime_protocol_members env (env.mro (TypeKey.concrete i)) =
        Except.ok ∅ :=
      runtime_protocol_members_markers env _ hmro ∅
    simp [_build_type_object, hab, hstub, hmeta, hattr, hrt, except_bind_ok]

/-- C5 witness: `claim_C5` run on `env_mixed`, whose type `concrete 0`
annotates `"__doc__"`, whose key `concrete 100` is the universal base type,
and whose MRO chains consist of that base type alone. -/
theorem claim_C5_witness :
    (∃ ann_names, env_mixed.annotations (TypeKey.concrete 0) = some ann_names
        ∧ "__doc__" ∈ ann_names)
    ∧ _extract_protocol_members env_mixed (TypeKey.concrete 100) =
        Except.ok ∅
    ∧ _build_type_object env_mixed (TypeKey.concrete 0) =
        Except.ok
          { typ := TypeKey.concrete 0, bases := ∅, is_protocol := true,
            protocol_members := ∅ } :=
  claim_C5 env_mixed (TypeKey.concrete 0) (TypeKey.concrete 100) {"__doc__"}
    "__doc__" ∅ 0 (by decide) (by decide) (by decide) (by decide) (by decide)
    (by decide) (by decide) (by decide) (by decide)

/-- Helper: under the versioned annotation policy (on Python ≥ 3.10 the
`__annotations__` attribute always exists), member extraction always
succeeds. -/
theorem extract_protocol_members_ok (env : Env)
    (h310 : env.py_ge_310 = true → ∀ u, (env.annotations u).isSome)
    (t : TypeKey) :
    ∃ s, _extract_protocol_members env t = Except.ok s := by
  unfold _extract_protocol_members
  split
  · exact ⟨∅, rfl⟩
  · cases hann : env.annotations t with
    | some a => exact ⟨_, by simp [hann]; rfl⟩
    | none =>
      cases hpy : env.py_ge_310 with
      | true =>
        have hs := h310 hpy t
        rw [hann] at hs
        simp at hs
      | false => exact ⟨_, by simp [hann, hpy]; rfl⟩

/-- Helper: under the versioned annotation policy, the runtime member fold
over any MRO succeeds. -/
theorem runtime_protocol_members_ok (env : Env)
    (h310 : env.py_ge_310 = true → ∀ u, (env.annotations u).isSome) :
    ∀ (l : List TypeKey) (acc : Finset String),
      ∃ m, l.foldlM
          (fun a base =>
            (_extract_protocol_members env base).map (fun s => a ∪ s)) acc =
        Except.ok m := by
  intro l
  induction l with
  | nil => intro acc; exact ⟨acc, rfl⟩
  | cons b rest ih =>
    intro acc
    obtain ⟨s, hs⟩ := extract_protocol_members_ok env h310 b
    obtain ⟨m, hm⟩ := ih (acc ∪ s)
    refine ⟨m, ?_⟩
    rw [List.foldlM_cons, hs]
    exact hm

/-- C7: the builder completes for every input type once its collaborators
behave: with the providers succeeding on the key and the versioned
annotation policy in force (on 3.10+ the annotation metadata always exists;
below 3.10 its absence is tolerated via `hasattr`), `_build_type_object`
returns a descriptor for every kind of key; and a broken runtime type whose
`_is_protocol` attribute read raises is degraded by `safe_getattr` to the
default — the build completes with the plain non-protocol descriptor
instead of propagating the failure. -/
theorem claim_C7 (env : Env) (typ : TypeKey) (j : Nat)
    (ab ab' : Finset TypeKey)
    (hab : get_additional_bases env typ = Except.ok ab)
    (h310 : env.py_ge_310 = true → ∀ u, (env.annotations u).isSome)
    (hab' : get_additional_bases env (TypeKey.concrete j) = Except.ok ab')
    (hstub : env.ts_is_protocol (TypeKey.concrete j) = false)
    (hbroken : env.attr_is_protocol (TypeKey.concrete j) = none) :
    (∃ desc, _build_type_object env typ = Except.ok desc)
    ∧ _build_type_object env (TypeKey.concrete j) =
        Except.ok
          { typ := TypeKey.concrete j, bases := ab', is_protocol := false,
            protocol_members := ∅ } := by
  constructor
  · cases typ with
    | synthetic n => exact ⟨_, rfl⟩
    | super_proxy s => exact ⟨_, by simp [_build_type_object, hab, except_bind_ok]; rfl⟩
    | concrete i =>
      by_cases hts : env.ts_is_protocol (TypeKey.concrete i) = true
      · exact ⟨_, by simp [_build_type_object, hab, hts, except_bind_ok]; rfl⟩
      · by_cases hrt : (env.is_ProtocolMeta (TypeKey.concrete i)
            && safe_getattr_is_protocol env (TypeKey.concrete i)) = true
        · obtain ⟨m, hm⟩ := runtime_protocol_members_ok env h310
            (env.mro (TypeKey.concrete i)) ∅
          exact ⟨_, by simp [_build_type_object, hab, hts, hrt,
            runtime_protocol_members, hm, except_bind_ok]; rfl⟩
        · exact ⟨_, by simp [_build_type_object, hab, hts, hrt, except_bind_ok]; rfl⟩
  · have hsafe : safe_getattr_is_protocol env (TypeKey.concrete j) = false := by
      simp [safe_getattr_is_protocol, hbroken]
    simp [_build_type_object, hab', hstub, hsafe, except_bind_ok]

/-- C7 witness: `claim_C7` run on `env_broken`, whose `_is_protocol` read
raises and whose `__annotations__` are absent (on a pre-3.10 Python). -/
theorem claim_C7_witness :
    (∃ desc, _build_type_object env_broken (TypeKey.concrete 0) =
        Except.ok desc)
    ∧ _build_type_object env_broken (TypeKey.concrete 0) =
        Except.ok
          { typ := TypeKey.concrete 0, bases := ∅, is_protocol := false,
            protocol_members := ∅ } :=
  claim_C7 env_broken (TypeKey.concrete 0) 0 ∅ ∅ (by decide)
    (fun h => absurd h (by decide)) (by decide) (by decide) (by decide)

/-- Helper: when every provider succeeds on the key, the provider fold
succeeds, and its result is characterized: a key is in the result exactly
when it is in the accumulator or contributed by some provider. -/
theorem foldlM_providers_ok (k : TypeKey) :
    ∀ (ps : List (TypeKey → Except PyErr (Finset TypeKey)))
      (acc : Finset TypeKey),
      (∀ p ∈ ps, ∃ t, p k = Except.ok t) →
      ∃ s, ps.foldlM (fun bases p => (p k).map (fun u => bases ∪ u)) acc =
          Except.ok s
        ∧ ∀ x, x ∈ s ↔ x ∈ acc ∨ ∃ p ∈ ps, ∃ t, p k = Except.ok t ∧ x ∈ t := by
  intro ps
  induction ps with
  | nil => intro acc _; exact ⟨acc, rfl, by simp⟩
  | cons p rest ih =>
    intro acc h
    obtain ⟨t, ht⟩ := h p (by simp)
    obtain ⟨s, hs, hiff⟩ :=
      ih (acc ∪ t) (fun q hq => h q (List.mem_cons_of_mem _ hq))
    refine ⟨s, ?_, ?_⟩
    · rw [List.foldlM_cons, ht]
      exact hs
    · intro x
      rw [hiff x]
      constructor
      · rintro (hx | ⟨q, hq, u, hqk, hxu⟩)
        · rcases Finset.mem_union.mp hx with hx' | hx'
          · exact Or.inl hx'
          · exact Or.inr ⟨p, by simp, t, ht, hx'⟩
        · exact Or.inr ⟨q, List.mem_cons_of_mem _ hq, u, hqk, hxu⟩
      · rintro (hx | ⟨q, hq, u, hqk, hxu⟩)
        · exact Or.inl (Finset.mem_union_left _ hx)
        · rcases List.mem_cons.mp hq with rfl | hq'
          · rw [ht] at hqk
            injection hqk with hqk'
            exact Or.inl (Finset.mem_union_right _ (hqk' ▸ hxu))
          · exact Or.inr ⟨q, hq', u, hqk, hxu⟩

/-- Helper: if the provider fold succeeded, every provider succeeded on the
key. -/
theorem foldlM_providers_all_ok (k : TypeKey) :
    ∀ (ps : List (TypeKey → Except PyErr (Finset TypeKey)))
      (acc s : Finset TypeKey),
      ps.foldlM (fun bases p => (p k).map (fun u => bases ∪ u)) acc =
        Except.ok s →
      ∀ p ∈ ps, ∃ t, p k = Except.ok t := by
  intro ps
  induction ps with
  | nil => simp
  | cons p rest ih =>
    intro acc s hfold q hq
    rw [List.foldlM_cons] at hfold
    cases hpk : p k with
    | error e =>
      rw [hpk] at hfold
      exact absurd hfold (by simp [Except.map, Except.bind, Bind.bind])
    | ok t =>
      rw [hpk] at hfold
      rcases List.mem_cons.mp hq with rfl | hq'
      · exact ⟨t, hpk⟩
      · exact ih (acc ∪ t) s hfold q hq'

/-- C9: `get_additional_bases` is the set union of the providers'
contributions.  (i) A successful result contains exactly the keys some
registered provider contributed; (ii) with providers returning `{xk}` and
`{yk}` the result is `{xk, yk}`; (iii) registering a provider a second time
does not change the result; (iv) permuting the registration order does not
change the result. -/
theorem claim_C9 (env envU : Env) (k x xk yk : TypeKey) (s : Finset TypeKey)
    (p : TypeKey → Except PyErr (Finset TypeKey))
    (ps' : List (TypeKey → Except PyErr (Finset TypeKey)))
    (h1 : get_additional_bases env k = Except.ok s)
    (hU : envU.providers =
      [fun _ => Except.ok {xk}, fun _ => Except.ok {yk}])
    (hp : p ∈ env.providers)
    (hperm : env.providers.Perm ps') :
    (x ∈ s ↔ ∃ q ∈ env.providers, ∃ t, q k = Except.ok t ∧ x ∈ t)
    ∧ get_additional_bases envU k = Except.ok {xk, yk}
    ∧ get_additional_bases
        { env with providers := env.providers ++ [p] } k =
        get_additional_bases env k
    ∧ get_additional_bases { env with providers := ps' } k =
        get_additional_bases env k := by
  have hall : ∀ q ∈ env.providers, ∃ t, q k = Except.ok t :=
    foldlM_providers_all_ok k env.providers ∅ s h1
  refine ⟨?_, ?_, ?_, ?_⟩
  · obtain ⟨s', hs', hiff⟩ := foldlM_providers_ok k env.providers ∅ hall
    rw [get_additional_bases] at h1
    rw [h1] at hs'
    injection hs' with hs''
    have := hiff x
    rw [← hs''] at this
    simpa using this
  · rw [get_additional_bases, hU]
    simp [List.foldlM_cons, List.foldlM_nil, Except.map, except_bind_ok,
      ← Finset.insert_eq]
  · have hall2 : ∀ q ∈ env.providers ++ [p], ∃ t, q k = Except.ok t := by
      intro q hq
      rcases List.mem_append.mp hq with hq' | hq'
      · exact hall q hq'
      · rcases List.mem_singleton.mp hq' with rfl
        exact hall q hp
    obtain ⟨s1, hs1, hiff1⟩ :=
      foldlM_providers_ok k (env.providers ++ [p]) ∅ hall2
    obtain ⟨s2, hs2, hiff2⟩ := foldlM_providers_ok k env.providers ∅ hall
    have hseq : s1 = s2 := by
      apply Finset.ext
      intro y
      rw [hiff1 y, hiff2 y]
      constructor
      · rintro (hy | ⟨q, hq, t, hqk, hyt⟩)
        · exact Or.inl hy
        · rcases List.mem_append.mp hq with hq' | hq'
          · exact Or.inr ⟨q, hq', t, hqk, hyt⟩
          · rcases List.mem_singleton.mp hq' with rfl
            exact Or.inr ⟨q, hp, t, hqk, hyt⟩
      · rintro (hy | ⟨q, hq, t, hqk, hyt⟩)
        · exact Or.inl hy
        · exact Or.inr ⟨q, List.mem_append_left _ hq, t, hqk, hyt⟩
    show (env.providers ++ [p]).foldlM
        (fun bases q => (q k).map (fun u => bases ∪ u)) ∅ =
      get_additional_bases env k
    rw [hs1, get_additional_bases, hs2, hseq]
  · have hallP : ∀ q ∈ ps', ∃ t, q k = Except.ok t :=
      fun q hq => hall q (hperm.mem_iff.mpr hq)
    obtain ⟨s1, hs1, hiff1⟩ := foldlM_providers_ok k ps' ∅ hallP
    obtain ⟨s2, hs2, hiff2⟩ := foldlM_providers_ok k env.providers ∅ hall
    have hseq : s1 = s2 := by
      apply Finset.ext
      intro y
      rw [hiff1 y, hiff2 y]
      constructor
      · rintro (hy | ⟨q, hq, t, hqk, hyt⟩)
        · exact Or.inl hy
        · exact Or.inr ⟨q, hperm.mem_iff.mpr hq, t, hqk, hyt⟩
      · rintro (hy | ⟨q, hq, t, hqk, hyt⟩)
        · exact Or.inl hy
        · exact Or.inr ⟨q, hperm.mem_iff.mp hq, t, hqk, hyt⟩
    show ps'.foldlM (fun bases q => (q k).map (fun u => bases ∪ u)) ∅ =
      get_additional_bases env k
    rw [hs1, get_additional_bases, hs2, hseq]

/-- C9 witness: `claim_C9` run on the two sample providers contributing
`{concrete 7}` and `{concrete 8}`, with `provider_X` duplicated and the
order of the two providers swapped. -/
theorem claim_C9_witness :
    (TypeKey.concrete 7 ∈ ({TypeKey.concrete 7, TypeKey.concrete 8} :
        Finset TypeKey) ↔
      ∃ q ∈ env_two_providers.providers, ∃ t,
        q key_S = Except.ok t ∧ TypeKey.concrete 7 ∈ t)
    ∧ get_additional_bases env_two_providers key_S =
        Except.ok {TypeKey.concrete 7, TypeKey.concrete 8}
    ∧ get_additional_bases
        { env_two_providers with
            providers := env_two_providers.providers ++ [provider_X] } key_S =
        get_additional_bases env_two_providers key_S
    ∧ get_additional_bases
        { env_two_providers with providers := [provider_Y, provider_X] }
        key_S =
        get_additional_bases env_two_providers key_S :=
  claim_C9 env_two_providers env_two_providers key_S (TypeKey.concrete 7)
    (TypeKey.concrete 7) (TypeKey.concrete 8)
    {TypeKey.concrete 7, TypeKey.concrete 8} provider_X
    [provider_Y, provider_X] (by decide) rfl (List.mem_cons_self _ _)
    (List.Perm.swap _ _ _)

end Pyanalyze
